import Mathlib

/-!
Shallow embedding of the claude-bridge server (two variants) for verification.

The repository contains two variants of the same OpenAI-compatible bridge:
 * `server.js` — translates requests to the Anthropic Messages HTTP API
   (namespace `Direct` below);
 * the subprocess variant (`src/unnamed/part_001`) — spawns the Claude CLI
   and relays its line-delimited JSON output (namespace `Cli` below).

JavaScript numbers that are used as counters are embedded as `Int` (so that
the `Math.max(0, ...)` clamp in `releaseSlot` is meaningful), strings as
`String`, absent / `undefined` fields as `Option`.  Platform functions that
are external to the repository (`JSON.parse`, `JSON.stringify`, the random
id generator `genId`) are abstracted as parameters collected in `JsEnv`.
-/

/-- JSON values, used to model the argument objects that `JSON.parse` /
`JSON.stringify` handle in the source. -/
inductive Json where
  | null
  | bool (b : Bool)
  | num (n : Int)
  | str (s : String)
  | arr (elems : List Json)
  | obj (fields : List (String × Json))
deriving Repr, BEq, Inhabited

/-- Environment of platform functions the source calls but does not define:
`JSON.parse` (which can fail), `JSON.stringify`, and the random id
generator `genId`, abstracted as an oracle indexed by occurrence. -/
structure JsEnv where
  parseJson : String → Option Json
  stringify : Json → String
  genId : Nat → String

namespace Cli

/-! part_001, lines 57-67: concurrency limiter.

```js
let activeProcesses = 0;
function acquireSlot() {
  if (activeProcesses >= MAX_CONCURRENT) return false;
  activeProcesses++;
  return true;
}
function releaseSlot() {
  activeProcesses = Math.max(0, activeProcesses - 1);
}
```
The mutable counter is embedded by explicit state passing: each operation
takes the current `activeProcesses` value and returns the new one. -/

/-- Embedding of `acquireSlot`: returns (return value, new counter). -/
def acquireSlot (maxConcurrent active : Int) : Bool × Int :=
  if active ≥ maxConcurrent then (false, active) else (true, active + 1)

/-- Embedding of `releaseSlot`: `Math.max(0, activeProcesses - 1)`. -/
def releaseSlot (active : Int) : Int := max 0 (active - 1)

/-- An interleaving step on the shared counter: some request calls
`acquireSlot` or `releaseSlot`. -/
inductive SlotOp where
  | acq
  | rel
deriving Repr, DecidableEq

/-- Runs a sequence of acquire/release calls against the counter. -/
def runSlots (maxConcurrent : Int) (ops : List SlotOp) (active : Int) : Int :=
  match ops with
  | [] => active
  | SlotOp.acq :: rest => runSlots maxConcurrent rest (acquireSlot maxConcurrent active).2
  | SlotOp.rel :: rest => runSlots maxConcurrent rest (releaseSlot active)

/-- Outcome of the admission check at the top of `POST /v1/chat/completions`
(part_001, lines 302-311): on a failed acquire the route immediately sends
the 429 capacity error and returns without spawning the backend. -/
inductive AdmitOutcome where
  | rejected429
  | admitted
deriving Repr, DecidableEq

/-- Embedding of the route's admission step: `if (!acquireSlot()) return 429`. -/
def chatAdmission (maxConcurrent active : Int) : AdmitOutcome × Int :=
  let r := acquireSlot maxConcurrent active
  if r.1 then (AdmitOutcome.admitted, r.2) else (AdmitOutcome.rejected429, r.2)

end Cli

namespace Direct

/-! server.js: OpenAI → Anthropic message conversion (lines 93-249). -/

/-- One element of an OpenAI `content` array (`part.type` dispatch in
`convertContent` / `extractText`): a text part, an `image_url` part (the
string is `part.image_url?.url`, empty string standing for a falsy url),
or an unrecognized part (dropped by the source). -/
inductive ContentPart where
  | text (t : String)
  | imageUrl (url : String)
  | otherPart
deriving Repr, BEq

/-- OpenAI `msg.content`: a plain string, an array of parts, or absent
(`undefined` / `null`). -/
inductive OAContent where
  | str (s : String)
  | parts (ps : List ContentPart)
  | absent
deriving Repr, BEq

/-- JavaScript truthiness of a `content` value: empty string, `undefined`
and `null` are falsy; arrays are truthy. -/
def OAContent.truthy : OAContent → Bool
  | OAContent.str s => !(s == "")
  | OAContent.parts _ => true
  | OAContent.absent => false

/-- The `fn.arguments` field of a tool call: a string (to be JSON-parsed),
an object-typed value (taken as is; includes JS `null`), or absent. -/
inductive ArgsVal where
  | str (s : String)
  | objVal (j : Json)
  | absent
deriving Repr, BEq

/-- The `tc.function` object of an OpenAI tool call. -/
structure ToolCallFn where
  name : Option String
  arguments : ArgsVal
deriving Repr, BEq

/-- An OpenAI assistant `tool_calls` entry. -/
structure OAToolCall where
  id : Option String
  function : Option ToolCallFn
deriving Repr, BEq

/-- An inbound OpenAI-shaped message.  An absent `tool_calls` field is
embedded as the empty list (the source guards with
`msg.tool_calls && msg.tool_calls.length > 0`). -/
structure OAMessage where
  role : String
  content : OAContent
  tool_calls : List OAToolCall := []
  tool_call_id : Option String := none
deriving Repr, BEq

/-- Source of an Anthropic image block (`source` field). -/
inductive ImageSource where
  | base64 (mediaType data : String)
  | url (u : String)
deriving Repr, BEq

/-- An Anthropic content block as built by `convertMessages`.  The
`toolResult` content is `Option` because `JSON.stringify(undefined)` is
`undefined` in JS. -/
inductive ABlock where
  | text (t : String)
  | image (source : ImageSource)
  | toolUse (id : String) (name : Option String) (input : Json)
  | toolResult (toolUseId : String) (content : Option String)
deriving Repr, BEq

/-- Anthropic message content: either still a plain string or a block
list (the merge in `pushMessage` normalizes strings into block lists). -/
inductive AContent where
  | str (s : String)
  | blocks (bs : List ABlock)
deriving Repr, BEq

/-- A message of the native (Anthropic) conversation list. -/
structure AMessage where
  role : String
  content : AContent
deriving Repr, BEq

/-- A block of the Anthropic `system` prompt; `cacheControl` records
whether `cache_control: {type:'ephemeral'}` was attached. -/
structure SysBlock where
  text : String
  cacheControl : Bool
deriving Repr, BEq

/-- The `{ system, messages }` pair returned by `convertMessages`. -/
structure NativeRequest where
  system : Option (List SysBlock)
  messages : List AMessage
deriving Repr, BEq

/-- Embedding of server.js `extractText` (lines 213-219): a string is
returned as is; an array keeps the text parts joined by newlines;
anything else gives the empty string. -/
def extractText : OAContent → String
  | OAContent.str s => s
  | OAContent.parts ps =>
      String.intercalate "\n" (ps.filterMap fun p =>
        match p with
        | ContentPart.text t => some t
        | _ => none)
  | OAContent.absent => ""

/-- Embedding of the data-URI regex of `convertContent`
(`^data:(image\/[^;]+);base64,(.+)$`): the media type is everything up to
the first semicolon, must extend `image/` by at least one character, and
the payload after `;base64,` must be non-empty and (since `.` in a JS
regex does not match line terminators) free of newlines. -/
def parseDataUri (url : String) : Option (String × String) :=
  if url.startsWith "data:" then
    match (url.drop 5).splitOn ";base64," with
    | mediaType :: d0 :: drest =>
      let data := String.intercalate ";base64," (d0 :: drest)
      if mediaType.startsWith "image/" && decide (6 < mediaType.length) &&
          !(mediaType.contains ';') && !(data == "") &&
          !(data.contains '\n') && !(data.contains '\r') then
        some (mediaType, data)
      else none
    | _ => none
  else none

/-- Blocks produced for one content part by `convertContent`:
unrecognized parts and unmatchable image urls are dropped silently. -/
def partBlocks (p : ContentPart) : List ABlock :=
  match p with
  | ContentPart.text t => [ABlock.text t]
  | ContentPart.imageUrl url =>
    if url == "" then []
    else if url.startsWith "data:" then
      match parseDataUri url with
      | some (mt, d) => [ABlock.image (ImageSource.base64 mt d)]
      | none => []
    else [ABlock.image (ImageSource.url url)]
  | ContentPart.otherPart => []

/-- Embedding of server.js `convertContent` (lines 221-249); a lone text
part collapses back to a plain string, mirroring the source's final
ternary. -/
def convertContent : OAContent → AContent
  | OAContent.str s => AContent.str s
  | OAContent.absent => AContent.str ""
  | OAContent.parts ps =>
    let blocks := ps.flatMap partBlocks
    match blocks with
    | [ABlock.text t] => AContent.str t
    | bs => AContent.blocks bs

/-- JavaScript `a || d` on an optional string: absent and empty strings
fall back to the default. -/
def jsOrString (o : Option String) (d : String) : String :=
  match o with
  | some s => if s == "" then d else s
  | none => d

/-- Argument-object computation of the assistant `tool_calls` branch
(server.js lines 141-147): a string is JSON-parsed with `{}` on failure,
an object-typed value is taken as is, anything else leaves `{}`. -/
def parseToolArgs (env : JsEnv) : ArgsVal → Json
  | ArgsVal.str s => (env.parseJson s).getD (Json.obj [])
  | ArgsVal.objVal j => j
  | ArgsVal.absent => Json.obj []

/-- Conversion of one OpenAI tool call to an Anthropic `tool_use` block
(server.js lines 140-154); `k` indexes the generated-id oracle for
`genId('toolu')`. -/
def convertToolCall (env : JsEnv) (k : Nat) (tc : OAToolCall) : ABlock :=
  let fn := tc.function.getD { name := none, arguments := ArgsVal.absent }
  ABlock.toolUse (jsOrString tc.id (env.genId k)) fn.name
    (parseToolArgs env fn.arguments)

/-- Content blocks of an assistant message that carries tool calls
(server.js lines 132-155): any truthy text first, then one `tool_use`
block per call. -/
def assistantToolBlocks (env : JsEnv) (k : Nat) (msg : OAMessage) : List ABlock :=
  let textBlocks :=
    if msg.content.truthy then
      let t := match msg.content with
        | OAContent.str s => s
        | c => extractText c
      if t == "" then [] else [ABlock.text t]
    else []
  textBlocks ++ msg.tool_calls.enum.map fun p => convertToolCall env (k + p.1) p.2

/-- View of an `AContent` as a block list, as the merge branch of
`pushMessage` does (`last.content` string → `[{type:'text'}]`). -/
def toBlocks : AContent → List ABlock
  | AContent.str s => [ABlock.text s]
  | AContent.blocks bs => bs

/-- Embedding of server.js `pushMessage` (lines 197-211): a message whose
role equals the last entry's role is merged into it, concatenating the
two content-block lists; otherwise it is appended. -/
def pushMessage (arr : List AMessage) (role : String) (content : AContent) :
    List AMessage :=
  match arr.getLast? with
  | some last =>
    if last.role == role then
      arr.dropLast ++
        [{ role := last.role,
           content := AContent.blocks (toBlocks last.content ++ toBlocks content) }]
    else arr ++ [{ role := role, content := content }]
  | none => [{ role := role, content := content }]

/-- Accumulator of the `convertMessages` loop: collected system parts,
the native message list so far, and the generated-id oracle cursor. -/
structure ConvState where
  systemParts : List String
  msgs : List AMessage
  genCount : Nat
deriving Repr

/-- One iteration of the `for (const msg of messages)` loop of
server.js `convertMessages` (lines 124-174), also taking the abstract
serializer for `JSON.stringify(msg.content)` of the tool branch. -/
def convertStep (env : JsEnv) (serializeParts : List ContentPart → String)
    (st : ConvState) (msg : OAMessage) : ConvState :=
  if msg.role == "system" then
    let t := extractText msg.content
    if t == "" then st else { st with systemParts := st.systemParts ++ [t] }
  else if msg.role == "assistant" && !msg.tool_calls.isEmpty then
    { st with
      msgs := pushMessage st.msgs "assistant"
        (AContent.blocks (assistantToolBlocks env st.genCount msg)),
      genCount := st.genCount + msg.tool_calls.length }
  else if msg.role == "tool" then
    let resultContent : Option String :=
      match msg.content with
      | OAContent.str s => some s
      | OAContent.parts ps => some (serializeParts ps)
      | OAContent.absent => none
    { st with
      msgs := pushMessage st.msgs "user"
        (AContent.blocks
          [ABlock.toolResult (jsOrString msg.tool_call_id "") resultContent]) }
  else
    let role := if msg.role == "assistant" then "assistant" else "user"
    { st with msgs := pushMessage st.msgs role (convertContent msg.content) }

/-- Embedding of server.js `convertMessages` (lines 120-194).  `oauth`
reflects `isOAuthToken(AUTH_TOKEN)` of the ambient configuration. -/
def convertMessages (env : JsEnv) (serializeParts : List ContentPart → String)
    (oauth : Bool) (messages : List OAMessage) : NativeRequest :=
  let st := messages.foldl (convertStep env serializeParts)
    { systemParts := [], msgs := [], genCount := 0 }
  let anthropicMessages :=
    match st.msgs with
    | [] => []
    | first :: rest =>
      if first.role == "user" then first :: rest
      else { role := "user", content := AContent.str "(continue)" } :: first :: rest
  let systemPrompt : Option (List SysBlock) :=
    if oauth then
      let parts := ["You are Claude Code, Anthropic's official CLI for Claude."] ++
        (if st.systemParts.isEmpty then [] else [String.intercalate "\n\n" st.systemParts])
      some [{ text := String.intercalate "\n\n" parts, cacheControl := true }]
    else if st.systemParts.isEmpty then none
    else some [{ text := String.intercalate "\n\n" st.systemParts, cacheControl := false }]
  { system := systemPrompt, messages := anthropicMessages }

end Direct

/-- Concrete platform environment used to evaluate the embedding on
closed inputs. -/
def sampleEnv : JsEnv :=
  { parseJson := fun _ => none
    stringify := fun _ => ""
    genId := fun k => "toolu-" ++ toString k }

/-- An output frame written to the HTTP response of a streaming request
(each SSE `data:` write, plus a marker for an HTTP-level error response,
which streaming paths must never produce once under way). -/
inductive Frame where
  | roleChunk
  | contentChunk (text : String)
  | toolStartChunk (idx : Int) (id : String) (name : Option String)
  | argDeltaChunk (idx : Int) (fragment : String)
  | errorEvent (message : String)
  | finishChunk (reason : String)
  | doneSentinel
  | httpError (status : Nat)
deriving Repr, DecidableEq

namespace Direct

/-- Embedding of server.js `mapStopReason` (lines 503-508). -/
def mapStopReason (reason : Option String) : String :=
  if reason = some "end_turn" ∨ reason = some "stop_sequence" then "stop"
  else if reason = some "max_tokens" then "length"
  else if reason = some "tool_use" then "tool_calls"
  else "stop"

/-- Finish-reason computation at the end of `handleStreaming` (line 489):
`stopReason === 'tool_use' ? 'tool_calls' : mapStopReason(stopReason)`,
where `stopReason` is a plain string initialized to `'stop'`. -/
def streamFinishReason (stopReason : String) : String :=
  if stopReason = "tool_use" then "tool_calls" else mapStopReason (some stopReason)

/-- Finish-reason computation of `handleNonStreaming` (line 348). -/
def assemblerFinishReason (stopReason : Option String) : String :=
  if stopReason = some "tool_use" then "tool_calls" else mapStopReason stopReason

/-- An Anthropic SSE event as classified by the `handleStreaming` loop
(server.js lines 432-484).  `Option` fields model possibly-absent JSON
fields; `otherLine` covers every other (or unparseable) line, which the
loop skips. -/
inductive AnthEvent where
  | textDelta (text : String)
  | toolStart (id : Option String) (name : Option String)
  | inputJsonDelta (fragment : Option String)
  | messageDelta (stopReason : Option String)
  | otherLine
deriving Repr, DecidableEq

/-- Mutable loop state of `handleStreaming`: `toolCallIndex` starts at -1,
`stopReason` starts as `'stop'`. -/
structure StreamState where
  toolCallIndex : Int
  stopReason : String
deriving Repr, DecidableEq

/-- One iteration of the `handleStreaming` event loop: the frames emitted
for the event and the updated state.  The generated-id oracle for
`block.id || genId('call')` is indexed by the tool-call position. -/
def streamStep (env : JsEnv) (st : StreamState) :
    AnthEvent → StreamState × List Frame
  | AnthEvent.textDelta t =>
      if t == "" then (st, []) else (st, [Frame.contentChunk t])
  | AnthEvent.toolStart id name =>
      let idx := st.toolCallIndex + 1
      ({ st with toolCallIndex := idx },
       [Frame.toolStartChunk idx (jsOrString id (env.genId idx.toNat)) name])
  | AnthEvent.inputJsonDelta frag =>
      match frag with
      | some s => (st, [Frame.argDeltaChunk st.toolCallIndex s])
      | none => (st, [])
  | AnthEvent.messageDelta r =>
      match r with
      | some s => if s == "" then (st, []) else ({ st with stopReason := s }, [])
      | none => (st, [])
  | AnthEvent.otherLine => (st, [])

/-- Runs the `handleStreaming` loop over a list of events. -/
def runStream (env : JsEnv) : List AnthEvent → StreamState → StreamState × List Frame
  | [], st => (st, [])
  | e :: rest, st =>
    let p := streamStep env st e
    let q := runStream env rest p.1
    (q.1, p.2 ++ q.2)

/-- Frames written by `handleStreaming` (server.js lines 394-497): the
initial role chunk, the frames of however many events were processed
before the body finished — an abnormal backend close simply means the
event list stops early — and then, from the `finally` block, exactly one
finish chunk and one DONE sentinel. -/
def handleStreamingFrames (env : JsEnv) (events : List AnthEvent) : List Frame :=
  let p := runStream env events { toolCallIndex := -1, stopReason := "stop" }
  Frame.roleChunk ::
    p.2 ++ [Frame.finishChunk (streamFinishReason p.1.stopReason), Frame.doneSentinel]

/-- The catch of `POST /v1/chat/completions` (server.js lines 333-338):
a 502 error body is sent only when no headers have been sent yet; once
streaming has begun (`headersSent`), nothing HTTP-level is emitted. -/
def chatCatchFrames (headersSent : Bool) : List Frame :=
  if headersSent then [] else [Frame.httpError 502]

end Direct

namespace Cli

/-- One line of Claude CLI stream-json output, as classified by
`handleStreamEvent` (part_001 lines 664-684): a
`stream_event`/`content_block_delta` line carrying `delta?.text`
(possibly absent), any other parseable JSON line, or a non-JSON line. -/
inductive CliLine where
  | textDelta (text : Option String)
  | otherEvent
  | nonJson
deriving Repr, DecidableEq

/-- Embedding of part_001 `handleStreamEvent`: emits a content chunk and
reports `true` iff the line is a content delta with truthy text; non-JSON
lines are skipped by the callers' `try`/`catch` with the same net effect. -/
def handleStreamEvent : CliLine → List Frame × Bool
  | CliLine.textDelta t =>
    match t with
    | some s => if s == "" then ([], false) else ([Frame.contentChunk s], true)
    | none => ([], false)
  | CliLine.otherEvent => ([], false)
  | CliLine.nonJson => ([], false)

/-- Finish reason of the close handler's terminal chunk (part_001 line
433): `code === 0 || sentContent ? 'stop' : 'error'`. -/
def closeFinishReason (code : Int) (sentContent : Bool) : String :=
  if code == 0 || sentContent then "stop" else "error"

/-- Frames written by the `proc.on('close')` handler of the streaming
path (part_001 lines 398-447), assuming `finished` was still false: the
remaining buffer is processed first, an SSE error event is sent only for
a non-zero exit with no content sent, then exactly one finish chunk and
the DONE sentinel. -/
def closeFrames (bufferLine : Option CliLine) (code : Int)
    (sentContent : Bool) (stderr : String) : List Frame :=
  let p := match bufferLine with
    | some l => handleStreamEvent l
    | none => ([], false)
  let sent := sentContent || p.2
  p.1 ++
    (if code ≠ 0 ∧ sent = false then
      [Frame.errorEvent ("Claude CLI exited with code " ++ toString code ++ ": "
        ++ stderr.take 200)]
    else []) ++
    [Frame.finishChunk (closeFinishReason code sent), Frame.doneSentinel]

/-- Whether any content chunk was emitted while relaying the given stdout
lines (the `sentContent` flag of part_001). -/
def sentAfter (lines : List CliLine) : Bool :=
  lines.any fun l => (handleStreamEvent l).2

/-- Frames of a whole CLI streaming request (part_001 lines 342-472):
the initial role chunk, the relay of the stdout lines, then the close
handler's frames computed from the exit code and the `sentContent` flag. -/
def cliStreamFrames (lines : List CliLine) (bufferLine : Option CliLine)
    (code : Int) (stderr : String) : List Frame :=
  Frame.roleChunk ::
    (lines.flatMap fun l => (handleStreamEvent l).1) ++
      closeFrames bufferLine code (sentAfter lines) stderr

end Cli

/-- JavaScript truthiness of a JSON value, as used by `block.input || {}`
in `extractResponseContent`. -/
def Json.truthy : Json → Bool
  | Json.null => false
  | Json.bool b => b
  | Json.num n => !(n == 0)
  | Json.str s => !(s == "")
  | Json.arr _ => true
  | Json.obj _ => true

namespace Direct

/-- A content block of an Anthropic non-streaming response
(`result.content` element) as inspected by `extractResponseContent`
(server.js lines 370-390): a text block, a `tool_use` block (with
possibly-absent id and input), or any other block type (skipped). -/
inductive RBlock where
  | text (t : String)
  | toolUse (id : Option String) (name : Option String) (input : Option Json)
  | otherBlock
deriving Repr, BEq

/-- An OpenAI tool-call entry as built by `extractResponseContent`. -/
structure ToolCallOut where
  id : String
  callType : String
  name : Option String
  arguments : String
deriving Repr, BEq, DecidableEq

/-- The text of a text block, if the block is one. -/
def textOf : RBlock → Option String
  | RBlock.text t => some t
  | _ => none

/-- Embedding of `block.input || {}`: an absent or falsy input degrades
to the empty object before serialization. -/
def normInput : Option Json → Json
  | some j => if j.truthy then j else Json.obj []
  | none => Json.obj []

/-- One iteration of the `for (const block of contentBlocks)` loop of
`extractResponseContent`: truthy text goes to `textParts`, a `tool_use`
block appends a tool-call entry (id defaulted through `genId('call')`,
arguments `JSON.stringify(block.input || {})`), anything else is
skipped. -/
def extractStep (env : JsEnv) (acc : List String × List ToolCallOut)
    (b : RBlock) : List String × List ToolCallOut :=
  match b with
  | RBlock.text t => if t == "" then acc else (acc.1 ++ [t], acc.2)
  | RBlock.toolUse id name input =>
    (acc.1,
     acc.2 ++ [{ id := jsOrString id (env.genId acc.2.length),
                 callType := "function",
                 name := name,
                 arguments := env.stringify (normInput input) }])
  | RBlock.otherBlock => acc

/-- Embedding of server.js `extractResponseContent` (lines 370-390):
returns `(textParts.join(''), toolCalls)`. -/
def extractResponseContent (env : JsEnv) (blocks : List RBlock) :
    String × List ToolCallOut :=
  let r := blocks.foldl (extractStep env) ([], [])
  (String.join r.1, r.2)

/-- The assistant message assembled by `handleNonStreaming`
(server.js lines 347-353): `content: text || null`, with the tool calls
attached (an empty list stands for the absent field). -/
structure OutMessage where
  role : String
  content : Option String
  tool_calls : List ToolCallOut
deriving Repr, BEq

/-- Assembly of the non-streaming response message from the backend
result's content blocks. -/
def assembleMessage (env : JsEnv) (blocks : List RBlock) : OutMessage :=
  let r := extractResponseContent env blocks
  { role := "assistant",
    content := if r.1 == "" then none else some r.1,
    tool_calls := r.2 }

/-- Specification view of the tool-call extraction: one entry per
`tool_use` block, in order, with the id defaulted through the oracle at
the entry's position and JSON-serialized arguments. -/
def toolOuts (env : JsEnv) (k : Nat) : List RBlock → List ToolCallOut
  | [] => []
  | RBlock.toolUse id name input :: rest =>
    { id := jsOrString id (env.genId k), callType := "function",
      name := name, arguments := env.stringify (normInput input) } ::
      toolOuts env (k + 1) rest
  | RBlock.text _ :: rest => toolOuts env k rest
  | RBlock.otherBlock :: rest => toolOuts env k rest

end Direct

/-- Backend-reported token usage (`result.usage` fields, each possibly
absent). -/
structure Usage where
  input_tokens : Option Int
  output_tokens : Option Int
deriving Repr, BEq, DecidableEq

/-- The OpenAI `usage` object of a non-streaming response body. -/
structure OAUsage where
  prompt_tokens : Int
  completion_tokens : Int
  total_tokens : Int
deriving Repr, BEq, DecidableEq

/-- JavaScript `v || 0` on a possibly-absent number. -/
def jsOrZero (v : Option Int) : Int :=
  match v with
  | some n => if n == 0 then 0 else n
  | none => 0

namespace Direct

/-- Usage object of `handleNonStreaming` (server.js lines 361-365). -/
def chatUsage (usage : Option Usage) : OAUsage :=
  { prompt_tokens := jsOrZero (usage.bind (fun u => u.input_tokens)),
    completion_tokens := jsOrZero (usage.bind (fun u => u.output_tokens)),
    total_tokens := jsOrZero (usage.bind (fun u => u.input_tokens)) +
      jsOrZero (usage.bind (fun u => u.output_tokens)) }

/-- Usage object of `POST /v1/completions` (server.js line 530). -/
def completionsUsage (usage : Option Usage) : OAUsage :=
  { prompt_tokens := jsOrZero (usage.bind (fun u => u.input_tokens)),
    completion_tokens := jsOrZero (usage.bind (fun u => u.output_tokens)),
    total_tokens := jsOrZero (usage.bind (fun u => u.input_tokens)) +
      jsOrZero (usage.bind (fun u => u.output_tokens)) }

end Direct

namespace Cli

/-- Embedding of part_001 `estimateTokens` (lines 699-702):
`Math.ceil(text.length / 4)`, 0 for falsy text. -/
def estimateTokens (text : String) : Int :=
  if text == "" then 0 else Int.ofNat ((text.length + 3) / 4)

/-- Usage object of the non-streaming chat completion (part_001 lines
493-498): `result.usage?.input_tokens ?? estimateTokens(...)`. -/
def chatUsage (usage : Option Usage) (userPrompt text : String) : OAUsage :=
  { prompt_tokens :=
      (usage.bind (fun u => u.input_tokens)).getD (estimateTokens userPrompt),
    completion_tokens :=
      (usage.bind (fun u => u.output_tokens)).getD (estimateTokens text),
    total_tokens :=
      (usage.bind (fun u => u.input_tokens)).getD (estimateTokens userPrompt) +
        (usage.bind (fun u => u.output_tokens)).getD (estimateTokens text) }

/-- Usage object of `POST /v1/completions` (part_001 lines 569-574). -/
def completionsUsage (usage : Option Usage) (prompt text : String) : OAUsage :=
  { prompt_tokens :=
      (usage.bind (fun u => u.input_tokens)).getD (estimateTokens prompt),
    completion_tokens :=
      (usage.bind (fun u => u.output_tokens)).getD (estimateTokens text),
    total_tokens :=
      (usage.bind (fun u => u.input_tokens)).getD (estimateTokens prompt) +
        (usage.bind (fun u => u.output_tokens)).getD (estimateTokens text) }

end Cli

theorem Cli.runSlots_bounds (maxConcurrent : Int) (h : 0 ≤ maxConcurrent)
    (ops : List SlotOp) :
    ∀ active : Int, 0 ≤ active → active ≤ maxConcurrent →
      0 ≤ runSlots maxConcurrent ops active ∧
      runSlots maxConcurrent ops active ≤ maxConcurrent := by
  induction ops with
  | nil => intro n h0 h1; exact ⟨h0, h1⟩
  | cons op rest ih =>
    intro n h0 h1
    cases op with
    | acq =>
      simp only [runSlots, acquireSlot]
      split
      · exact ih n h0 h1
      · exact ih (n + 1) (by omega) (by omega)
    | rel =>
      simp only [runSlots, releaseSlot]
      exact ih (max 0 (n - 1)) (by omega) (by omega)


/-- C9: the admission controller's in-flight counter always stays within
[0, MAX_CONCURRENT]: `acquireSlot` increments only when the counter is
strictly below the capacity (and leaves it unchanged when it refuses),
`releaseSlot` clamps at zero, and every interleaving of acquire/release
calls starting from 0 preserves `0 ≤ activeProcesses ≤ MAX_CONCURRENT`. -/
theorem Cli.slot_counter_stays_in_bounds (maxConcurrent : Int)
    (h : 0 ≤ maxConcurrent) :
    (∀ active : Int,
      ((acquireSlot maxConcurrent active).1 = true ↔ active < maxConcurrent) ∧
      ((acquireSlot maxConcurrent active).1 = true →
        (acquireSlot maxConcurrent active).2 = active + 1) ∧
      ((acquireSlot maxConcurrent active).1 = false →
        (acquireSlot maxConcurrent active).2 = active)) ∧
    (∀ active : Int, 0 ≤ releaseSlot active) ∧
    (∀ ops : List SlotOp,
      0 ≤ runSlots maxConcurrent ops 0 ∧
      runSlots maxConcurrent ops 0 ≤ maxConcurrent) := by
  refine ⟨fun n => ?_, fun n => ?_, fun ops => ?_⟩
  · simp only [acquireSlot]
    split <;> simp_all <;> omega
  · simp only [releaseSlot]; omega
  · exact runSlots_bounds maxConcurrent h ops 0 le_rfl h

/-- Witness for C9 at capacity 2 and a concrete interleaving. -/
theorem Cli.slot_counter_stays_in_bounds_witness :
    0 ≤ Cli.runSlots 2 [Cli.SlotOp.acq, Cli.SlotOp.acq, Cli.SlotOp.acq,
      Cli.SlotOp.rel, Cli.SlotOp.rel, Cli.SlotOp.rel, Cli.SlotOp.acq] 0 ∧
    Cli.runSlots 2 [Cli.SlotOp.acq, Cli.SlotOp.acq, Cli.SlotOp.acq,
      Cli.SlotOp.rel, Cli.SlotOp.rel, Cli.SlotOp.rel, Cli.SlotOp.acq] 0 ≤ 2 :=
  (Cli.slot_counter_stays_in_bounds 2 (by decide)).2.2 _

/-- C6: the admission controller admits exactly N concurrent executions:
`acquireSlot` succeeds (and increments) iff the count is below capacity;
when the pool is exhausted it returns false leaving the count unchanged and
the route answers 429 without invoking the backend; from a full pool, one
release admits exactly one further acquire (the next one fails again). -/
theorem Cli.admission_exactly_capacity (maxConcurrent active : Int) :
    ((acquireSlot maxConcurrent active).1 = true ↔ active < maxConcurrent) ∧
    ((acquireSlot maxConcurrent active).1 = true →
      chatAdmission maxConcurrent active = (AdmitOutcome.admitted, active + 1)) ∧
    ((acquireSlot maxConcurrent active).1 = false →
      (acquireSlot maxConcurrent active).2 = active ∧
      chatAdmission maxConcurrent active = (AdmitOutcome.rejected429, active)) ∧
    (active = maxConcurrent →
      (acquireSlot maxConcurrent active).1 = false ∧
      (1 ≤ maxConcurrent →
        (acquireSlot maxConcurrent (releaseSlot active)).1 = true ∧
        (acquireSlot maxConcurrent
          (acquireSlot maxConcurrent (releaseSlot active)).2).1 = false)) := by
  refine ⟨?_, ?_, ?_, ?_⟩
  · simp only [acquireSlot]; split <;> simp_all <;> omega
  · intro hs
    by_cases hc : maxConcurrent ≤ active
    · simp [acquireSlot, hc] at hs
    · simp [chatAdmission, acquireSlot, hc]
  · intro hf
    by_cases hc : maxConcurrent ≤ active
    · simp [chatAdmission, acquireSlot, hc]
    · simp [acquireSlot, hc] at hf
  · intro heq
    have hc : maxConcurrent ≤ active := le_of_eq heq.symm
    refine ⟨by simp [acquireSlot, hc], fun h1 => ?_⟩
    have hrel : releaseSlot active = maxConcurrent - 1 := by
      simp only [releaseSlot]; omega
    rw [hrel]
    have h2 : ¬ maxConcurrent ≤ maxConcurrent - 1 := by omega
    have h3 : acquireSlot maxConcurrent (maxConcurrent - 1) =
        (true, maxConcurrent - 1 + 1) := by
      simp [acquireSlot, h2]
    refine ⟨by rw [h3], ?_⟩
    rw [h3]
    have h4 : maxConcurrent - 1 + 1 = maxConcurrent := by omega
    rw [h4]
    simp [acquireSlot]

/-- Witness for C6 at capacity 2, pool full. -/
theorem Cli.admission_exactly_capacity_witness :
    (Cli.acquireSlot 2 2).1 = false ∧
    (Cli.acquireSlot 2 (Cli.releaseSlot 2)).1 = true ∧
    (Cli.acquireSlot 2 (Cli.acquireSlot 2 (Cli.releaseSlot 2)).2).1 = false := by
  obtain ⟨-, -, -, h⟩ := Cli.admission_exactly_capacity 2 2
  obtain ⟨ha, hb⟩ := h rfl
  exact ⟨ha, (hb (by decide)).1, (hb (by decide)).2⟩

namespace Direct

theorem chain'_pushMessage (arr : List AMessage) (role : String)
    (content : AContent)
    (h : List.Chain' (fun a b => a.role ≠ b.role) arr) :
    List.Chain' (fun a b => a.role ≠ b.role)
      (pushMessage arr role content) := by
  induction arr using List.reverseRecOn with
  | nil => simp [pushMessage]
  | append_singleton xs x _ =>
    unfold pushMessage
    rw [List.getLast?_concat]
    dsimp only
    rw [List.chain'_append] at h
    obtain ⟨h1, -, h3⟩ := h
    split
    · rw [List.dropLast_concat, List.chain'_append]
      refine ⟨h1, List.chain'_singleton _, ?_⟩
      intro a ha b hb
      simp only [List.head?_cons, Option.mem_def, Option.some.injEq] at hb
      subst hb
      exact h3 a ha x (by simp)
    · rename_i hne
      rw [List.chain'_append]
      refine ⟨List.chain'_append.mpr ⟨h1, List.chain'_singleton _, h3⟩,
        List.chain'_singleton _, ?_⟩
      intro a ha b hb
      simp only [List.getLast?_concat, Option.mem_def, Option.some.injEq] at ha
      simp only [List.head?_cons, Option.mem_def, Option.some.injEq] at hb
      subst ha; subst hb
      simpa using fun hh => hne (by simp [hh])

theorem chain'_convertStep (env : JsEnv)
    (serializeParts : List ContentPart → String) (st : ConvState)
    (msg : OAMessage)
    (h : List.Chain' (fun a b => a.role ≠ b.role) st.msgs) :
    List.Chain' (fun a b => a.role ≠ b.role)
      (convertStep env serializeParts st msg).msgs := by
  unfold convertStep
  split
  · dsimp only
    split
    · exact h
    · exact h
  · split
    · exact chain'_pushMessage _ _ _ h
    · split
      · exact chain'_pushMessage _ _ _ h
      · exact chain'_pushMessage _ _ _ h

theorem chain'_foldl (env : JsEnv)
    (serializeParts : List ContentPart → String) (messages : List OAMessage) :
    ∀ st : ConvState, List.Chain' (fun a b => a.role ≠ b.role) st.msgs →
      List.Chain' (fun a b => a.role ≠ b.role)
        (messages.foldl (convertStep env serializeParts) st).msgs := by
  induction messages with
  | nil => intro st h; exact h
  | cons m rest ih =>
    intro st h
    exact ih _ (chain'_convertStep env serializeParts st m h)

end Direct

/-- C4: the native message list produced by the Message Converter never
contains two consecutive entries of the same role, and whenever the
converter would append a message whose role equals the previous entry's
role, `pushMessage` merges the two into one entry whose content is the
concatenation of both content-block lists, in order. -/
theorem Direct.converter_never_adjacent_same_role :
    (∀ (env : JsEnv) (serializeParts : List ContentPart → String)
       (oauth : Bool) (messages : List OAMessage),
       List.Chain' (fun a b => a.role ≠ b.role)
         (convertMessages env serializeParts oauth messages).messages) ∧
    (∀ (arr : List AMessage) (role : String) (content : AContent)
       (last : AMessage), arr.getLast? = some last → last.role = role →
       pushMessage arr role content =
         arr.dropLast ++
           [{ role := last.role,
              content := AContent.blocks
                (toBlocks last.content ++ toBlocks content) }]) := by
  constructor
  · intro env sp oauth messages
    have hL := chain'_foldl env sp messages
      { systemParts := [], msgs := [], genCount := 0 } (by simp)
    unfold convertMessages
    dsimp only
    split
    · simp
    · rename_i first rest heq
      rw [heq] at hL
      split
      · exact hL
      · rename_i hne
        rw [List.chain'_cons]
        exact ⟨fun hh => hne (by simp [hh.symm]), hL⟩
  · intro arr role content last hl hrole
    unfold pushMessage
    rw [hl]
    simp [hrole]

/-- Witness for C4: pushing a same-role message merges the contents. -/
theorem Direct.converter_never_adjacent_same_role_witness :
    Direct.pushMessage [{ role := "user", content := Direct.AContent.str "a" }]
      "user" (Direct.AContent.str "b") =
    [{ role := "user",
       content := Direct.AContent.blocks
         [Direct.ABlock.text "a", Direct.ABlock.text "b"] }] := by
  have h := Direct.converter_never_adjacent_same_role.2
    [{ role := "user", content := Direct.AContent.str "a" }] "user"
    (Direct.AContent.str "b")
    { role := "user", content := Direct.AContent.str "a" } (by simp) rfl
  simpa [Direct.toBlocks] using h

/-- C5: whenever the native message list produced by the Message Converter
is non-empty, its first entry has the user role (a synthetic placeholder
user message is prepended if conversion would otherwise begin with a
non-user entry). -/
theorem Direct.first_message_role_is_user (env : JsEnv)
    (serializeParts : List ContentPart → String) (oauth : Bool)
    (messages : List OAMessage) (first : AMessage) (rest : List AMessage)
    (h : (convertMessages env serializeParts oauth messages).messages =
      first :: rest) :
    first.role = "user" := by
  unfold convertMessages at h
  dsimp only at h
  split at h
  · cases h
  · rename_i f r heq
    split at h
    · rename_i hu
      cases h
      simpa using hu
    · cases h
      rfl

/-- Witness for C5: a conversation opening with an assistant message gets
the placeholder prepended, so the first native entry is user-role. -/
theorem Direct.first_message_role_is_user_witness :
    ({ role := "user", content := Direct.AContent.str "(continue)" } :
      Direct.AMessage).role = "user" :=
  Direct.first_message_role_is_user sampleEnv (fun _ => "") false
    [{ role := "assistant", content := Direct.OAContent.str "x" }]
    { role := "user", content := Direct.AContent.str "(continue)" }
    [{ role := "assistant", content := Direct.AContent.str "x" }] (by rfl)

/-- C7: an assistant message carrying tool-call requests converts to one
`tool_use` block per requested call — after an optional leading text
block — each with a call identifier (generated when the input has none),
the tool name, and an argument object parsed from the argument string;
when the argument string is not valid JSON the argument object is the
empty object and the conversion still succeeds (it still yields a native
assistant message). -/
theorem Direct.tool_call_conversion (env : JsEnv) :
    (∀ (k : Nat) (msg : OAMessage), msg.tool_calls ≠ [] →
      ∃ pre, (pre = [] ∨ ∃ t, pre = [ABlock.text t]) ∧
        assistantToolBlocks env k msg =
          pre ++ msg.tool_calls.enum.map
            (fun p => convertToolCall env (k + p.1) p.2)) ∧
    (∀ (k : Nat) (tc : OAToolCall) (fn : ToolCallFn), tc.function = some fn →
      convertToolCall env k tc =
        ABlock.toolUse (jsOrString tc.id (env.genId k)) fn.name
          (parseToolArgs env fn.arguments)) ∧
    (∀ (k : Nat) (tc : OAToolCall), tc.id = none →
      jsOrString tc.id (env.genId k) = env.genId k) ∧
    (∀ s : String, env.parseJson s = none →
      parseToolArgs env (ArgsVal.str s) = Json.obj []) ∧
    (∀ (serializeParts : List ContentPart → String) (oauth : Bool)
       (msg : OAMessage), msg.role = "assistant" → msg.tool_calls ≠ [] →
      (convertMessages env serializeParts oauth [msg]).messages =
        [{ role := "user", content := AContent.str "(continue)" },
         { role := "assistant",
           content := AContent.blocks (assistantToolBlocks env 0 msg) }]) := by
  refine ⟨?_, ?_, ?_, ?_, ?_⟩
  · intro k msg _
    unfold assistantToolBlocks
    dsimp only
    refine ⟨_, ?_, rfl⟩
    split
    · split
      · exact Or.inl rfl
      · exact Or.inr ⟨_, rfl⟩
    · exact Or.inl rfl
  · intro k tc fn hf
    unfold convertToolCall
    rw [hf]
    rfl
  · intro k tc hid
    unfold jsOrString
    rw [hid]
  · intro s hp
    simp only [parseToolArgs]
    rw [hp]
    rfl
  · intro sp oauth msg hrole htc
    have hne : msg.tool_calls.isEmpty = false := by
      cases h : msg.tool_calls with
      | nil => exact absurd h htc
      | cons a l => rfl
    simp only [convertMessages, List.foldl_cons, List.foldl_nil, convertStep,
      hrole, hne]
    simp [pushMessage]

/-- Witness for C7: a tool call with no id and a malformed argument string
converts to a `tool_use` block with a generated id and empty input. -/
theorem Direct.tool_call_conversion_witness :
    Direct.convertToolCall sampleEnv 0
      { id := none,
        function := some { name := some "get_weather",
                           arguments := Direct.ArgsVal.str "not json" } } =
      Direct.ABlock.toolUse (sampleEnv.genId 0) (some "get_weather")
        (Json.obj []) := by
  have h2 := (Direct.tool_call_conversion sampleEnv).2.1 0
    { id := none,
      function := some { name := some "get_weather",
                         arguments := Direct.ArgsVal.str "not json" } }
    { name := some "get_weather", arguments := Direct.ArgsVal.str "not json" }
    rfl
  have h3 := (Direct.tool_call_conversion sampleEnv).2.2.1 0
    { id := none,
      function := some { name := some "get_weather",
                         arguments := Direct.ArgsVal.str "not json" } } rfl
  have h4 := (Direct.tool_call_conversion sampleEnv).2.2.2.1 "not json" rfl
  rw [h2, h3, h4]

theorem Cli.handleStreamEvent_frames (l : Cli.CliLine) :
    ∀ f ∈ (Cli.handleStreamEvent l).1, ∃ t, f = Frame.contentChunk t := by
  cases l with
  | textDelta t =>
    cases t with
    | none => simp [Cli.handleStreamEvent]
    | some s =>
      by_cases h : s == ""
      · simp [Cli.handleStreamEvent, h]
      · intro f hf
        simp [Cli.handleStreamEvent, h] at hf
        exact ⟨s, hf⟩
  | otherEvent => simp [Cli.handleStreamEvent]
  | nonJson => simp [Cli.handleStreamEvent]

theorem Direct.runStream_frames (env : JsEnv) (events : List Direct.AnthEvent) :
    ∀ st, ∀ f ∈ (Direct.runStream env events st).2,
      (∃ t, f = Frame.contentChunk t) ∨
      (∃ i id nm, f = Frame.toolStartChunk i id nm) ∨
      (∃ i s, f = Frame.argDeltaChunk i s) := by
  induction events with
  | nil => intro st f hf; simp [Direct.runStream] at hf
  | cons e rest ih =>
    intro st f hf
    simp only [Direct.runStream, List.mem_append] at hf
    rcases hf with hf | hf
    · cases e with
      | textDelta t =>
        by_cases h : t == ""
        · simp [Direct.streamStep, h] at hf
        · simp [Direct.streamStep, h] at hf
          exact Or.inl ⟨t, hf⟩
      | toolStart id nm =>
        simp [Direct.streamStep] at hf
        exact Or.inr (Or.inl ⟨_, _, _, hf⟩)
      | inputJsonDelta frag =>
        cases frag with
        | none => simp [Direct.streamStep] at hf
        | some s =>
          simp [Direct.streamStep] at hf
          exact Or.inr (Or.inr ⟨_, _, hf⟩)
      | messageDelta r =>
        cases r with
        | none => simp [Direct.streamStep] at hf
        | some s =>
          by_cases h : s == ""
          · simp [Direct.streamStep, h] at hf
          · simp [Direct.streamStep, h] at hf
      | otherLine => simp [Direct.streamStep] at hf
    · exact ih _ f hf

/-- C1: when the backend of a streaming request terminates abnormally
(non-zero exit) after at least one content chunk was emitted, the client
still receives exactly one finish chunk followed by exactly one DONE
sentinel — everything before them is plain delta chunks, no SSE error
event and no HTTP-level error; the direct-backend streaming handler
likewise always ends any processed event prefix with exactly one finish
chunk and one DONE sentinel, and its route-level catch sends no HTTP
error once streaming headers are out. -/
theorem streaming_failure_still_terminates :
    (∀ (lines : List Cli.CliLine) (bufferLine : Option Cli.CliLine)
       (code : Int) (stderr : String),
       Cli.sentAfter lines = true → code ≠ 0 →
       ∃ pre, Cli.cliStreamFrames lines bufferLine code stderr =
           Frame.roleChunk :: pre ++
             [Frame.finishChunk "stop", Frame.doneSentinel] ∧
         ∀ f ∈ pre, ∃ t, f = Frame.contentChunk t) ∧
    (∀ (env : JsEnv) (events : List Direct.AnthEvent),
       ∃ pre reason, Direct.handleStreamingFrames env events =
           Frame.roleChunk :: pre ++
             [Frame.finishChunk reason, Frame.doneSentinel] ∧
         ∀ f ∈ pre,
           (∃ t, f = Frame.contentChunk t) ∨
           (∃ i id nm, f = Frame.toolStartChunk i id nm) ∨
           (∃ i s, f = Frame.argDeltaChunk i s)) ∧
    Direct.chatCatchFrames true = [] := by
  refine ⟨?_, ?_, rfl⟩
  · intro lines bufferLine code stderr hsent hcode
    cases bufferLine with
    | none =>
      refine ⟨lines.flatMap fun l => (Cli.handleStreamEvent l).1, ?_, ?_⟩
      · unfold Cli.cliStreamFrames Cli.closeFrames
        rw [hsent]
        simp [Cli.closeFinishReason]
      · intro f hf
        simp only [List.mem_flatMap] at hf
        obtain ⟨l, -, hfl⟩ := hf
        exact Cli.handleStreamEvent_frames l f hfl
    | some bl =>
      refine ⟨(lines.flatMap fun l => (Cli.handleStreamEvent l).1) ++
        (Cli.handleStreamEvent bl).1, ?_, ?_⟩
      · unfold Cli.cliStreamFrames Cli.closeFrames
        rw [hsent]
        simp [Cli.closeFinishReason]
      · intro f hf
        rcases List.mem_append.mp hf with hf | hf
        · simp only [List.mem_flatMap] at hf
          obtain ⟨l, -, hfl⟩ := hf
          exact Cli.handleStreamEvent_frames l f hfl
        · exact Cli.handleStreamEvent_frames bl f hf
  · intro env events
    refine ⟨(Direct.runStream env events ⟨-1, "stop"⟩).2,
      Direct.streamFinishReason
        (Direct.runStream env events ⟨-1, "stop"⟩).1.stopReason, rfl, ?_⟩
    intro f hf
    exact Direct.runStream_frames env events _ f hf

/-- Witness for C1: two content chunks, then exit code 1. -/
theorem streaming_failure_still_terminates_witness :
    ∃ pre, Cli.cliStreamFrames [Cli.CliLine.textDelta (some "hi"),
        Cli.CliLine.textDelta (some " there")] none 1 "boom" =
        Frame.roleChunk :: pre ++
          [Frame.finishChunk "stop", Frame.doneSentinel] ∧
      ∀ f ∈ pre, ∃ t, f = Frame.contentChunk t :=
  streaming_failure_still_terminates.1
    [Cli.CliLine.textDelta (some "hi"), Cli.CliLine.textDelta (some " there")]
    none 1 "boom" (by decide) (by decide)

/-- C2 counterexample: with exit code 1 after content was already emitted
(`sentContent = true`), the close handler's terminal finish chunk carries
the finish reason 'stop', not 'error'. -/
theorem Cli.nonzero_exit_after_content_reason_is_stop :
    Cli.closeFinishReason 1 true = "stop" ∧
    Cli.closeFrames none 1 true "boom" =
      [Frame.finishChunk "stop", Frame.doneSentinel] ∧
    ("stop" : String) ≠ "error" := by
  refine ⟨by decide, by decide, by decide⟩

/-- C2 amended: for a subprocess that exits with a non-zero code after
streamed content was emitted, the terminal finish chunk carries the
finish reason 'stop' (the request is not failed as a whole); the 'error'
finish reason is used only when a non-zero exit happens with no content
emitted at all. -/
theorem Cli.stream_close_degrades_to_stop (code : Int) (sent : Bool)
    (bufferLine : Option Cli.CliLine) (stderr : String) :
    (code ≠ 0 → sent = true →
      Cli.closeFinishReason code sent = "stop" ∧
      ∃ pre, Cli.closeFrames bufferLine code sent stderr =
        pre ++ [Frame.finishChunk "stop", Frame.doneSentinel]) ∧
    (code ≠ 0 → sent = false → bufferLine = none →
      Cli.closeFinishReason code sent = "error" ∧
      Cli.closeFrames bufferLine code sent stderr =
        [Frame.errorEvent ("Claude CLI exited with code " ++ toString code
          ++ ": " ++ stderr.take 200),
         Frame.finishChunk "error", Frame.doneSentinel]) := by
  constructor
  · rintro hcode rfl
    refine ⟨by simp [Cli.closeFinishReason], ?_⟩
    cases bufferLine with
    | none =>
      exact ⟨[], by simp [Cli.closeFrames, Cli.closeFinishReason]⟩
    | some bl =>
      exact ⟨(Cli.handleStreamEvent bl).1,
        by simp [Cli.closeFrames, Cli.closeFinishReason]⟩
  · rintro hcode rfl rfl
    have hbeq : (code == 0) = false := by
      simp [hcode]
    constructor
    · simp [Cli.closeFinishReason, hbeq]
    · simp [Cli.closeFrames, Cli.closeFinishReason, hbeq, hcode]

/-- Witness for C2's amended statement at code 1. -/
theorem Cli.stream_close_degrades_to_stop_witness :
    (Cli.closeFinishReason 1 true = "stop" ∧
      ∃ pre, Cli.closeFrames none 1 true "" =
        pre ++ [Frame.finishChunk "stop", Frame.doneSentinel]) ∧
    (Cli.closeFinishReason 1 false = "error" ∧
      Cli.closeFrames none 1 false "" =
        [Frame.errorEvent ("Claude CLI exited with code " ++ toString (1 : Int)
          ++ ": " ++ ("" : String).take 200),
         Frame.finishChunk "error", Frame.doneSentinel]) := by
  constructor
  · exact (Cli.stream_close_degrades_to_stop 1 true none "").1 (by decide) rfl
  · exact (Cli.stream_close_degrades_to_stop 1 false none "").2
      (by decide) rfl rfl

/-- C3 counterexample: the finish-reason computation at the
process-backend stream end produces 'error' (exit code 1, no content
emitted), which is outside {stop, length, tool_calls}. -/
theorem Cli.close_reason_escapes_mapping_range :
    Cli.closeFinishReason 1 false = "error" ∧
    ("error" : String) ∉ (["stop", "length", "tool_calls"] : List String) := by
  exact ⟨by decide, by decide⟩

/-- C3 amended: the stop-reason mapping of the direct backend
(`mapStopReason`, used at its stream end and by its response assembler)
is total and lands only in {stop, length, tool_calls} — 'tool_use' maps
to 'tool_calls', 'max_tokens' maps to 'length', every other input
including an absent reason maps to 'stop', and the pre-checks at both
call sites are redundant with the mapping; the process-backend stream
end, however, does not apply this mapping: it computes its finish reason
directly from the exit code and the content flag, yielding only 'stop'
or 'error'. -/
theorem Direct.stop_reason_mapping_total :
    (∀ reason : Option String,
      Direct.mapStopReason reason =
        if reason = some "max_tokens" then "length"
        else if reason = some "tool_use" then "tool_calls"
        else "stop") ∧
    (∀ reason : Option String,
      Direct.mapStopReason reason ∈
        (["stop", "length", "tool_calls"] : List String)) ∧
    (∀ s : String, Direct.streamFinishReason s = Direct.mapStopReason (some s)) ∧
    (∀ reason : Option String,
      Direct.assemblerFinishReason reason = Direct.mapStopReason reason) ∧
    Direct.streamFinishReason "stop" = "stop" ∧
    (∀ (code : Int) (sent : Bool),
      Cli.closeFinishReason code sent = "stop" ∨
      Cli.closeFinishReason code sent = "error") := by
  have hmap : ∀ reason : Option String,
      Direct.mapStopReason reason =
        if reason = some "max_tokens" then "length"
        else if reason = some "tool_use" then "tool_calls"
        else "stop" := by
    intro r
    rcases r with - | s
    · rfl
    · by_cases h1 : s = "end_turn"
      · subst h1; rfl
      by_cases h2 : s = "stop_sequence"
      · subst h2; rfl
      by_cases h3 : s = "max_tokens"
      · subst h3; rfl
      by_cases h4 : s = "tool_use"
      · subst h4; rfl
      · simp [Direct.mapStopReason, h1, h2, h3, h4]
  refine ⟨hmap, ?_, ?_, ?_, by decide, ?_⟩
  · intro r
    rw [hmap r]
    split_ifs <;> simp
  · intro s
    by_cases h : s = "tool_use"
    · subst h; rfl
    · simp [Direct.streamFinishReason, h]
  · intro r
    rcases r with - | s
    · rfl
    · by_cases h : s = "tool_use"
      · subst h; rfl
      · simp [Direct.assemblerFinishReason, h]
  · intro code sent
    unfold Cli.closeFinishReason
    split
    · exact Or.inl rfl
    · exact Or.inr rfl

theorem foldl_append_shift (l : List String) : ∀ a b : String,
    l.foldl (· ++ ·) (a ++ b) = a ++ l.foldl (· ++ ·) b := by
  induction l with
  | nil => intro a b; rfl
  | cons x xs ih =>
    intro a b
    simp only [List.foldl_cons]
    rw [String.append_assoc, ih]

theorem join_cons (s : String) (l : List String) :
    String.join (s :: l) = s ++ String.join l := by
  show (s :: l).foldl (· ++ ·) "" = s ++ l.foldl (· ++ ·) ""
  simp only [List.foldl_cons]
  rw [String.empty_append]
  calc l.foldl (· ++ ·) s
      = l.foldl (· ++ ·) (s ++ "") := by rw [String.append_empty]
    _ = s ++ l.foldl (· ++ ·) "" := foldl_append_shift l s ""

theorem join_filter_ne_empty : ∀ l : List String,
    String.join (l.filter fun t => !(t == "")) = String.join l := by
  intro l
  induction l with
  | nil => rfl
  | cons t rest ih =>
    by_cases h : (t == "") = true
    · have ht : t = "" := by simpa using h
      subst ht
      simp [List.filter_cons, join_cons, ih, String.empty_append]
    · rw [List.filter_cons, if_pos (show (!(t == "")) = true by simp [h]),
        join_cons, join_cons, ih]

theorem Direct.extract_fold (env : JsEnv) (blocks : List Direct.RBlock) :
    ∀ acc : List String × List Direct.ToolCallOut,
      (blocks.foldl (Direct.extractStep env) acc).1 =
        acc.1 ++ ((blocks.filterMap Direct.textOf).filter fun t => !(t == "")) ∧
      (blocks.foldl (Direct.extractStep env) acc).2 =
        acc.2 ++ Direct.toolOuts env acc.2.length blocks := by
  induction blocks with
  | nil => intro acc; simp [Direct.toolOuts]
  | cons b rest ih =>
    intro acc
    cases b with
    | text t =>
      by_cases h : (t == "") = true
      · simp only [List.foldl_cons, Direct.extractStep]
        rw [if_pos h]
        obtain ⟨ih1, ih2⟩ := ih acc
        have ht : t = "" := by simpa using h
        subst ht
        refine ⟨?_, ?_⟩
        · rw [ih1]
          simp [Direct.textOf, List.filterMap_cons, List.filter_cons]
        · rw [ih2]
          simp [Direct.toolOuts]
      · simp only [List.foldl_cons, Direct.extractStep]
        rw [if_neg h]
        obtain ⟨ih1, ih2⟩ := ih (acc.1 ++ [t], acc.2)
        refine ⟨?_, ?_⟩
        · rw [ih1]
          simp only [Direct.textOf, List.filterMap_cons]
          rw [List.filter_cons, if_pos (show (!(t == "")) = true by simp [h])]
          simp [List.append_assoc]
        · rw [ih2]
          simp [Direct.toolOuts]
    | toolUse id name input =>
      simp only [List.foldl_cons, Direct.extractStep]
      obtain ⟨ih1, ih2⟩ := ih (acc.1,
        acc.2 ++ [{ id := Direct.jsOrString id (env.genId acc.2.length),
                    callType := "function", name := name,
                    arguments := env.stringify (Direct.normInput input) }])
      refine ⟨?_, ?_⟩
      · rw [ih1]
        simp [Direct.textOf, List.filterMap_cons]
      · rw [ih2]
        simp only [List.length_append, List.length_cons, List.length_nil]
        rw [Direct.toolOuts]
        simp [List.append_assoc]
    | otherBlock =>
      simp only [List.foldl_cons, Direct.extractStep]
      obtain ⟨ih1, ih2⟩ := ih acc
      exact ⟨by rw [ih1]; simp [Direct.textOf, List.filterMap_cons],
        by rw [ih2]; simp [Direct.toolOuts]⟩

/-- C8: on the non-streaming path the assembled message content is the
in-order concatenation of the result's text blocks (null when that
concatenation is empty — in particular when there are no text blocks but
at least one tool call), and each `tool_use` block maps to one tool-call
entry whose arguments are the JSON serialization of the block's
(defaulted) input object. -/
theorem Direct.response_assembler (env : JsEnv) (blocks : List Direct.RBlock) :
    (Direct.extractResponseContent env blocks).1 =
      String.join (blocks.filterMap Direct.textOf) ∧
    (Direct.assembleMessage env blocks).content =
      (if String.join (blocks.filterMap Direct.textOf) == "" then none
       else some (String.join (blocks.filterMap Direct.textOf))) ∧
    (blocks.filterMap Direct.textOf = [] →
      (Direct.extractResponseContent env blocks).2 ≠ [] →
      (Direct.assembleMessage env blocks).content = none) ∧
    (Direct.extractResponseContent env blocks).2 =
      Direct.toolOuts env 0 blocks := by
  have hfold := Direct.extract_fold env blocks ([], [])
  have h1 : (Direct.extractResponseContent env blocks).1 =
      String.join (blocks.filterMap Direct.textOf) := by
    show String.join (blocks.foldl (Direct.extractStep env) ([], [])).1 = _
    rw [hfold.1]
    simpa using join_filter_ne_empty (blocks.filterMap Direct.textOf)
  have h2 : (Direct.assembleMessage env blocks).content =
      (if String.join (blocks.filterMap Direct.textOf) == "" then none
       else some (String.join (blocks.filterMap Direct.textOf))) := by
    show (if (Direct.extractResponseContent env blocks).1 == "" then none
       else some (Direct.extractResponseContent env blocks).1) = _
    rw [h1]
  refine ⟨h1, h2, ?_, ?_⟩
  · intro hnotext _
    rw [h2, hnotext]
    rfl
  · show (blocks.foldl (Direct.extractStep env) ([], [])).2 = _
    rw [hfold.2]
    simp

/-- Witness for C8: a lone tool-use block with no text yields a null
content. -/
theorem Direct.response_assembler_witness :
    (Direct.assembleMessage sampleEnv
      [Direct.RBlock.toolUse none (some "f") none]).content = none := by
  have h := (Direct.response_assembler sampleEnv
      [Direct.RBlock.toolUse none (some "f") none]).2.2.1
  refine h rfl ?_
  have h4 := (Direct.response_assembler sampleEnv
      [Direct.RBlock.toolUse none (some "f") none]).2.2.2
  rw [h4]
  simp [Direct.toolOuts]

/-- C10: in every non-streaming usage object — chat completions and
legacy completions, both backend variants, backend-reported counts or
length-based estimates — `total_tokens` equals
`prompt_tokens + completion_tokens`. -/
theorem usage_totals_consistent :
    (∀ usage : Option Usage,
      (Direct.chatUsage usage).total_tokens =
        (Direct.chatUsage usage).prompt_tokens +
          (Direct.chatUsage usage).completion_tokens) ∧
    (∀ usage : Option Usage,
      (Direct.completionsUsage usage).total_tokens =
        (Direct.completionsUsage usage).prompt_tokens +
          (Direct.completionsUsage usage).completion_tokens) ∧
    (∀ (usage : Option Usage) (userPrompt text : String),
      (Cli.chatUsage usage userPrompt text).total_tokens =
        (Cli.chatUsage usage userPrompt text).prompt_tokens +
          (Cli.chatUsage usage userPrompt text).completion_tokens) ∧
    (∀ (usage : Option Usage) (prompt text : String),
      (Cli.completionsUsage usage prompt text).total_tokens =
        (Cli.completionsUsage usage prompt text).prompt_tokens +
          (Cli.completionsUsage usage prompt text).completion_tokens) :=
  ⟨fun _ => rfl, fun _ => rfl, fun _ _ _ => rfl, fun _ _ _ => rfl⟩